import Mathlib

/-!
Verification of the EchoVision live-session component
(`src/components/EchoVision.tsx`).

The development shallowly embeds the component's pure data transforms
(base64 codec, PCM-to-buffer decoding) and its stateful session logic
(playback scheduling, transcript handling, start/stop lifecycle) as
executable Lean definitions, and proves the specified properties about
them.  Byte sequences are `List Nat` with values below 256 (the
`Uint8Array` contract); strings handed to `btoa`/`atob` are `List Char`;
audio time is modelled with `ℚ`.
-/

namespace EchoVision

/-! ## Base64 codec (source lines 81-93)

`encode` builds a binary string whose character codes are the bytes and
applies the platform `btoa`; `decode` applies `atob` and reads the
character codes back.  Since `String.fromCharCode`/`charCodeAt` are
mutually inverse on code points below 256, the model fuses them away and
works directly on byte lists.  `btoa` is RFC 4648 base64 with `=`
padding; `atob` is modelled on its canonical range (the only inputs the
program ever feeds it): strip the trailing padding, map alphabet
characters back to sextets, and reassemble the bytes. -/

def b64Alphabet : List Char :=
  ['A', 'B', 'C', 'D', 'E', 'F', 'G', 'H', 'I', 'J', 'K', 'L', 'M',
   'N', 'O', 'P', 'Q', 'R', 'S', 'T', 'U', 'V', 'W', 'X', 'Y', 'Z',
   'a', 'b', 'c', 'd', 'e', 'f', 'g', 'h', 'i', 'j', 'k', 'l', 'm',
   'n', 'o', 'p', 'q', 'r', 's', 't', 'u', 'v', 'w', 'x', 'y', 'z',
   '0', '1', '2', '3', '4', '5', '6', '7', '8', '9', '+', '/']

def charOfSextet (s : Nat) : Char := b64Alphabet.getD s 'A'

def sextetOfChar (c : Char) : Nat := b64Alphabet.findIdx (fun x => x == c)

/-- Platform `btoa`: three input bytes become four alphabet characters;
a final group of one or two bytes is padded with `=`. -/
def btoa : List Nat → List Char
  | [] => []
  | [b1] =>
      [charOfSextet (b1 / 4), charOfSextet (b1 % 4 * 16), '=', '=']
  | [b1, b2] =>
      [charOfSextet (b1 / 4), charOfSextet (b1 % 4 * 16 + b2 / 16),
       charOfSextet (b2 % 16 * 4), '=']
  | b1 :: b2 :: b3 :: rest =>
      charOfSextet (b1 / 4) :: charOfSextet (b1 % 4 * 16 + b2 / 16) ::
      charOfSextet (b2 % 16 * 4 + b3 / 64) :: charOfSextet (b3 % 64) ::
      btoa rest

/-- Reassemble bytes from a list of sextets: four sextets give three
bytes; a trailing group of two or three sextets (produced by stripping
`=` padding) gives one or two bytes. -/
def sextetsToBytes : List Nat → List Nat
  | s1 :: s2 :: s3 :: s4 :: rest =>
      (s1 * 4 + s2 / 16) :: (s2 % 16 * 16 + s3 / 4) ::
      (s3 % 4 * 64 + s4) :: sextetsToBytes rest
  | [s1, s2] => [s1 * 4 + s2 / 16]
  | [s1, s2, s3] => [s1 * 4 + s2 / 16, s2 % 16 * 16 + s3 / 4]
  | _ => []

/-- Platform `atob` on canonical base64 (the range of `btoa`). -/
def atob (s : List Char) : List Nat :=
  sextetsToBytes ((s.takeWhile (fun c => c ≠ '=')).map sextetOfChar)

/-- Source `encode` (lines 81-86). -/
def encode (bytes : List Nat) : List Char := btoa bytes

/-- Source `decode` (lines 88-93). -/
def decode (base64 : List Char) : List Nat := atob base64

theorem charOfSextet_ne_pad : ∀ s : Nat, s < 64 → charOfSextet s ≠ '=' := by
  decide

theorem sextetOfChar_charOfSextet : ∀ s : Nat, s < 64 →
    sextetOfChar (charOfSextet s) = s := by
  decide

/-- Induction on a list three elements at a time, matching the recursion
pattern of `btoa`. -/
theorem three_step_induction {α : Type} {P : List α → Prop} (h0 : P [])
    (h1 : ∀ a, P [a]) (h2 : ∀ a b, P [a, b])
    (h3 : ∀ a b c l, P l → P (a :: b :: c :: l)) : ∀ l, P l
  | [] => h0
  | [a] => h1 a
  | [a, b] => h2 a b
  | a :: b :: c :: l => h3 a b c l (three_step_induction h0 h1 h2 h3 l)

/-- C5: for every byte sequence `b` (values below 256, the `Uint8Array`
contract), `decode (encode b) = b`: the base64 codec pair is an exact
round trip. -/
theorem decode_encode_roundtrip :
    ∀ b : List Nat, (∀ x ∈ b, x < 256) → decode (encode b) = b := by
  intro b
  induction b using three_step_induction with
  | h0 => intro _; rfl
  | h1 a =>
      intro h
      have ha : a < 256 := h a (by simp)
      have e1 := charOfSextet_ne_pad (a / 4) (by omega)
      have e2 := charOfSextet_ne_pad (a % 4 * 16) (by omega)
      simp only [decode, encode, btoa, atob, List.takeWhile_cons, e1, e2,
        decide_True, decide_False, if_true, if_false, Bool.false_eq_true, ne_eq, not_true_eq_false, not_false_eq_true,
        List.map_cons, List.map_nil]
      rw [sextetOfChar_charOfSextet _ (by omega),
        sextetOfChar_charOfSextet _ (by omega)]
      simp only [sextetsToBytes]
      congr 1
      omega
  | h2 a b =>
      intro h
      have ha : a < 256 := h a (by simp)
      have hb : b < 256 := h b (by simp)
      have e1 := charOfSextet_ne_pad (a / 4) (by omega)
      have e2 := charOfSextet_ne_pad (a % 4 * 16 + b / 16) (by omega)
      have e3 := charOfSextet_ne_pad (b % 16 * 4) (by omega)
      simp only [decode, encode, btoa, atob, List.takeWhile_cons, e1, e2, e3,
        decide_True, decide_False, if_true, if_false, Bool.false_eq_true, ne_eq, not_true_eq_false, not_false_eq_true,
        List.map_cons, List.map_nil]
      rw [sextetOfChar_charOfSextet _ (by omega),
        sextetOfChar_charOfSextet _ (by omega),
        sextetOfChar_charOfSextet _ (by omega)]
      simp only [sextetsToBytes, List.cons.injEq, and_true]
      constructor <;> omega
  | h3 a b c l ih =>
      intro h
      have ha : a < 256 := h a (by simp)
      have hb : b < 256 := h b (by simp)
      have hc : c < 256 := h c (by simp)
      have hl : ∀ x ∈ l, x < 256 := fun x hx => h x (by simp [hx])
      have e1 := charOfSextet_ne_pad (a / 4) (by omega)
      have e2 := charOfSextet_ne_pad (a % 4 * 16 + b / 16) (by omega)
      have e3 := charOfSextet_ne_pad (b % 16 * 4 + c / 64) (by omega)
      have e4 := charOfSextet_ne_pad (c % 64) (by omega)
      have ihl := ih hl
      simp only [decode, encode, btoa, atob] at ihl ⊢
      simp only [List.takeWhile_cons, e1, e2, e3, e4, decide_True,
        decide_False, if_true, if_false, Bool.false_eq_true, ne_eq,
        not_true_eq_false, not_false_eq_true, List.map_cons]
      rw [sextetOfChar_charOfSextet _ (by omega),
        sextetOfChar_charOfSextet _ (by omega),
        sextetOfChar_charOfSextet _ (by omega),
        sextetOfChar_charOfSextet _ (by omega)]
      simp only [sextetsToBytes, List.cons.injEq]
      exact ⟨by omega, by omega, by omega, ihl⟩

/-- Witness for C5 at a concrete byte sequence. -/
theorem decode_encode_roundtrip_witness :
    decode (encode [0, 77, 255]) = [0, 77, 255] :=
  decode_encode_roundtrip [0, 77, 255] (by decide)

/-! ## PCM decoding (source lines 95-106)

`decodeAudioData` views the byte array as an `Int16Array` (platform
little-endian 16-bit pairs; per ECMAScript `ToIndex`, the fractional
element count `byteLength / 2` is truncated, so a trailing odd byte is
silently dropped), allocates an audio buffer of
`frameCount = dataInt16.length / numChannels` frames (Web IDL
`unsigned long` conversion truncates the fractional quotient), and
fills each channel with `dataInt16[i * numChannels + channel] / 32768`
(the loop's final fractional iteration writes out of bounds of the
`Float32Array`, which is silently ignored).  `createBuffer` throws
`NotSupportedError` when the channel count is outside its nominal range
1..32, when the frame count is 0, or when the sample rate is outside
the supported range (the Web Audio spec mandates at least
8000..96000; the program only ever passes 24000); the model returns
`none` exactly in those cases.  Division by 32768 is exact in both
float64 and float32, so channel samples are modelled as `ℚ`. -/

/-- Signed 16-bit little-endian sample from two bytes. -/
def toInt16 (lo hi : Nat) : Int :=
  if lo + 256 * hi < 32768 then (lo + 256 * hi : Nat)
  else (lo + 256 * hi : Nat) - 65536

/-- The `Int16Array` view of a byte list: consecutive little-endian
pairs, a trailing odd byte dropped. -/
def dataInt16 : List Nat → List Int
  | lo :: hi :: rest => toInt16 lo hi :: dataInt16 rest
  | _ => []

/-- A Web Audio `AudioBuffer`: per-channel normalized sample data. -/
structure AudioBuffer where
  numberOfChannels : Nat
  length : Nat
  sampleRate : Nat
  channels : List (List ℚ)
deriving DecidableEq

instance : Inhabited AudioBuffer := ⟨⟨0, 0, 0, []⟩⟩

/-- `AudioBuffer.duration` is `length / sampleRate` seconds. -/
def AudioBuffer.duration (b : AudioBuffer) : ℚ :=
  (b.length : ℚ) / (b.sampleRate : ℚ)

/-- Validity condition of `createBuffer` (Web Audio nominal ranges). -/
def createBufferOk (numChannels frameCount sampleRate : Nat) : Bool :=
  decide (1 ≤ numChannels) && decide (numChannels ≤ 32) &&
  decide (1 ≤ frameCount) &&
  decide (8000 ≤ sampleRate) && decide (sampleRate ≤ 96000)

/-- Source `decodeAudioData` (lines 95-106); `none` models the
`NotSupportedError` thrown by `createBuffer`. -/
def decodeAudioData (data : List Nat) (sampleRate numChannels : Nat) :
    Option AudioBuffer :=
  let samples := dataInt16 data
  let frameCount := samples.length / numChannels
  if createBufferOk numChannels frameCount sampleRate then
    some { numberOfChannels := numChannels, length := frameCount, sampleRate,
           channels := (List.range numChannels).map fun channel =>
             (List.range frameCount).map fun i =>
               ((samples.getD (i * numChannels + channel) 0 : ℚ) / 32768) }
  else none

/-- Induction on a list two elements at a time, matching `dataInt16`. -/
theorem two_step_induction {α : Type} {P : List α → Prop} (h0 : P [])
    (h1 : ∀ a, P [a]) (h2 : ∀ a b l, P l → P (a :: b :: l)) : ∀ l, P l
  | [] => h0
  | [a] => h1 a
  | a :: b :: l => h2 a b l (two_step_induction h0 h1 h2 l)

theorem dataInt16_length (data : List Nat) :
    (dataInt16 data).length = data.length / 2 := by
  induction data using two_step_induction with
  | h0 => simp [dataInt16]
  | h1 a => simp [dataInt16]
  | h2 a b l ih => simp only [dataInt16, List.length_cons, ih]; omega

theorem dataInt16_getD (data : List Nat) :
    ∀ k, k < data.length / 2 →
      (dataInt16 data).getD k 0 =
        toInt16 (data.getD (2 * k) 0) (data.getD (2 * k + 1) 0) := by
  induction data using two_step_induction with
  | h0 => intro k hk; simp at hk
  | h1 a =>
      intro k hk
      simp only [List.length_singleton] at hk
      omega
  | h2 a b l ih =>
      intro k hk
      match k with
      | 0 => rfl
      | k + 1 =>
          have hk' : k < l.length / 2 := by
            simp only [List.length_cons] at hk; omega
          have : 2 * (k + 1) = 2 * k + 2 := by omega
          simp only [dataInt16, List.getD_cons_succ, this, ih k hk']

theorem toInt16_bounds (lo hi : Nat) (hlo : lo < 256) (hhi : hi < 256) :
    -32768 ≤ toInt16 lo hi ∧ toInt16 lo hi ≤ 32767 := by
  unfold toInt16
  split <;> omega

theorem ratDiv_bounds (t : Int) (h1 : -32768 ≤ t) (h2 : t ≤ 32767) :
    -1 ≤ (t : ℚ) / 32768 ∧ (t : ℚ) / 32768 < 1 := by
  constructor
  · rw [le_div_iff₀ (by norm_num : (0:ℚ) < 32768)]
    exact_mod_cast (by omega : (-32768 : Int) ≤ t)
  · rw [div_lt_one (by norm_num : (0:ℚ) < 32768)]
    exact_mod_cast (by omega : t < (32768 : Int))

theorem getD_range_map {α : Type} (f : Nat → α) (n k : Nat) (d : α)
    (h : k < n) : ((List.range n).map f).getD k d = f k := by
  rw [List.getD_eq_getElem?_getD]
  simp [List.getElem?_map, List.getElem?_range h]

/-! ## Component state (source lines 12-24)

The component's mutable state is the React state (`isActive`,
`lastMessage`, `error`), the status reported through `onStatusChange`,
and the refs (`sessionRef`, the two audio contexts, the playback
cursor `nextStartTimeRef`, the scheduled-source set `sourcesRef`, the
frame timer id, and the capture stream attached to the video element).
External resources — media-stream tracks, audio contexts and live
connections — are modelled by numeric ids; the `open…` lists record
which of them are currently open (tracks not stopped, contexts and
connections not closed), so that leaks are observable.  `nextId`
supplies fresh ids for newly acquired resources. -/

/-- `SessionStatus` from `src/types.ts`. -/
inductive SessionStatus where
  | IDLE | CONNECTING | ACTIVE | ERROR | ANALYZING | SEARCHING
deriving DecidableEq

/-- One scheduled output source: the buffer and its start time. -/
structure ScheduledSource where
  startTime : ℚ
  buffer : AudioBuffer
deriving DecidableEq

instance : Inhabited ScheduledSource := ⟨⟨0, default⟩⟩

structure SysState where
  isActive : Bool
  status : SessionStatus
  error : Option (String × String)
  lastMessage : String
  nextStartTime : ℚ
  sources : List ScheduledSource
  frameInterval : Option Nat
  sessionRef : Option Nat
  ctxInput : Option Nat
  ctxOutput : Option Nat
  videoStream : Option Nat
  openSessions : List Nat
  openCtxs : List Nat
  openStreams : List Nat
  nextId : Nat

/-- Initial component state: every ref `null`, cursor 0, no error. -/
def initState : SysState :=
  { isActive := false, status := .IDLE, error := none, lastMessage := "",
    nextStartTime := 0, sources := [], frameInterval := none,
    sessionRef := none, ctxInput := none, ctxOutput := none,
    videoStream := none, openSessions := [], openCtxs := [],
    openStreams := [], nextId := 0 }

/-! ## Message handling (source lines 215-231) -/

/-- A `LiveServerMessage` as far as `onmessage` inspects it: the
`outputTranscription.text` field, if any, and the base64 text of the
first part's `inlineData`, if any. -/
structure LiveMsg where
  outputTranscription : Option String
  audioData : Option (List Char)

def audioMsg (d : List Char) : LiveMsg := ⟨none, some d⟩

def transcriptMsg (t : String) : LiveMsg := ⟨some t, none⟩

/-- Lines 216-218: an output transcription replaces `lastMessage`. -/
def applyTranscription (msg : LiveMsg) (s : SysState) : SysState :=
  match msg.outputTranscription with
  | some t => { s with lastMessage := t }
  | none => s

/-- Lines 221-230: clamp the cursor to the current graph time, decode,
schedule at the cursor, advance the cursor by the buffer's duration and
record the source.  The clamp (line 222) happens before the decode
(line 223); when the decode throws, the handler aborts with only the
clamp applied. -/
def playAudioChunk (now : ℚ) (d : List Char) (s : SysState) : SysState :=
  let sClamped := { s with nextStartTime := max s.nextStartTime now }
  match decodeAudioData (decode d) 24000 1 with
  | none => sClamped
  | some buffer =>
      { sClamped with
        nextStartTime := sClamped.nextStartTime + buffer.duration,
        sources := sClamped.sources ++ [⟨sClamped.nextStartTime, buffer⟩] }

/-- The `onmessage` callback (lines 215-231).  `now` is
`ctx.currentTime` when the handler runs.  The audio branch requires a
truthy `audioData` (line 219-220: the empty string is falsy) and a
non-null output context. -/
def onmessage (now : ℚ) (msg : LiveMsg) (s : SysState) : SysState :=
  let s1 := applyTranscription msg s
  match msg.audioData, s1.ctxOutput with
  | some d, some _ => if d.isEmpty then s1 else playAudioChunk now d s1
  | _, _ => s1

/-- Process a stream of inbound events in arrival order; each carries
the graph time at which it is handled. -/
def runMessages (s : SysState) : List (ℚ × LiveMsg) → SysState
  | [] => s
  | (now, m) :: rest => runMessages (onmessage now m s) rest

/-! ## Teardown and lifecycle (source lines 108-156, 233-246) -/

/-- Close the resource held by a ref: its id is no longer open. -/
def closeId (o : Option Nat) (l : List Nat) : List Nat :=
  match o with
  | some i => l.filter (fun x => x ≠ i)
  | none => l

/-- `stopSession` (lines 108-135).  The `silent` flag only selects a
sound cue and has no effect on the state.  Order as in the source:
reset `isActive` and report IDLE, clear the frame timer, close and null
the session, stop and clear every scheduled source, close and null both
audio contexts, stop the capture stream's tracks and detach it. -/
def stopSession (silent : Bool) (s : SysState) : SysState :=
  { s with isActive := false, status := .IDLE,
           frameInterval := none,
           sessionRef := none,
           openSessions := closeId s.sessionRef s.openSessions,
           sources := [],
           ctxInput := none, ctxOutput := none,
           openCtxs := closeId s.ctxOutput (closeId s.ctxInput s.openCtxs),
           videoStream := none,
           openStreams := closeId s.videoStream s.openStreams }

/-- The `onerror` callback (lines 233-236): an error cue (no state
effect) and `stopSession(true)`. -/
def onerror (s : SysState) : SysState := stopSession true s

/-- The `onclose` callback (line 237): `stopSession()`. -/
def onclose (s : SysState) : SysState := stopSession false s

/-- Environment outcome of one `startSession` call: `getUserMedia`
rejects, `ai.live.connect` fails, or everything succeeds.  Failures
carry the thrown error's message. -/
inductive StartOutcome where
  | mediaDenied (msg : String)
  | connectFailed (msg : String)
  | connected

/-- `startSession` (lines 137-156, 175-245).  It clears the error and
reports CONNECTING, then acquires in order: the capture stream
(attached to the video element), the input and output audio contexts
(overwriting the refs), and the connection; on `onopen` it becomes
active, reports ACTIVE and starts the frame timer; `sessionRef` is set
when the connect promise resolves.  The catch block (lines 241-245)
only plays a cue, stores the error pair and reports ERROR — it releases
nothing. -/
def startSession (o : StartOutcome) (s : SysState) : SysState :=
  let s0 := { s with error := none, status := SessionStatus.CONNECTING }
  match o with
  | .mediaDenied m =>
      { s0 with status := .ERROR,
                error := some ("Access Denied",
                  if m = "" then "Please enable permissions." else m) }
  | .connectFailed m =>
      { s0 with videoStream := some s.nextId,
                openStreams := s.openStreams ++ [s.nextId],
                ctxInput := some (s.nextId + 1),
                ctxOutput := some (s.nextId + 2),
                openCtxs := s.openCtxs ++ [s.nextId + 1, s.nextId + 2],
                nextId := s.nextId + 3,
                status := .ERROR,
                error := some ("Access Denied",
                  if m = "" then "Please enable permissions." else m) }
  | .connected =>
      { s0 with videoStream := some s.nextId,
                openStreams := s.openStreams ++ [s.nextId],
                ctxInput := some (s.nextId + 1),
                ctxOutput := some (s.nextId + 2),
                openCtxs := s.openCtxs ++ [s.nextId + 1, s.nextId + 2],
                sessionRef := some (s.nextId + 3),
                openSessions := s.openSessions ++ [s.nextId + 3],
                isActive := true, status := .ACTIVE,
                frameInterval := some (s.nextId + 4),
                nextId := s.nextId + 5 }

/-- The only open resources are the ones the component's refs hold.
This holds along the component's normal lifecycle (it can only be
broken by the unguarded double-`startSession` leak, see C9). -/
def Owned (s : SysState) : Prop :=
  (∀ x ∈ s.openStreams, s.videoStream = some x) ∧
  (∀ x ∈ s.openSessions, s.sessionRef = some x) ∧
  (∀ x ∈ s.openCtxs, s.ctxInput = some x ∨ s.ctxOutput = some x)

/-- A state with no open external resources. -/
def Clean (s : SysState) : Prop :=
  s.openStreams = [] ∧ s.openCtxs = [] ∧ s.openSessions = []

/-- A state reached by a successful `startSession` from the initial
state; used as the concrete active state in witnesses. -/
def activeDemo : SysState := startSession .connected initState

/-! ## Playback scheduling analysis (claims about lines 215-231) -/

/-- The buffer an audio chunk decodes to (line 223: 24 kHz, mono). -/
def chunkBuffer (d : List Char) : Option AudioBuffer :=
  decodeAudioData (decode d) 24000 1

/-- The playback duration of an audio chunk, 0 when it fails to
decode. -/
def chunkDur (d : List Char) : ℚ :=
  ((chunkBuffer d).map AudioBuffer.duration).getD 0

/-- Sum of the decoded durations of a chunk sequence. -/
def durSum (evs : List (ℚ × List Char)) : ℚ :=
  (evs.map fun e => chunkDur e.2).sum

/-- No stall: each chunk arrives (at graph time `e.1`) no later than
the cursor stands when it is processed. -/
def noStallB : ℚ → List (ℚ × List Char) → Bool
  | _, [] => true
  | c, (now, d) :: rest =>
      decide (now ≤ c) && noStallB (c + chunkDur d) rest

/-- The scheduled sources produced by a stall-free chunk sequence
starting from cursor `c`: back-to-back start times. -/
def schedList : ℚ → List (ℚ × List Char) → List ScheduledSource
  | _, [] => []
  | c, (_, d) :: rest =>
      ⟨c, (chunkBuffer d).getD default⟩ :: schedList (c + chunkDur d) rest

theorem duration_nonneg (b : AudioBuffer) : 0 ≤ b.duration := by
  unfold AudioBuffer.duration
  positivity

theorem chunkBuffer_nil : chunkBuffer [] = none := rfl

theorem onmessage_audio_step (now : ℚ) (d : List Char) (s : SysState)
    (cid : Nat) (hc : s.ctxOutput = some cid) (b : AudioBuffer)
    (hb : chunkBuffer d = some b) :
    onmessage now (audioMsg d) s =
      { s with nextStartTime := max s.nextStartTime now + b.duration,
               sources := s.sources ++ [⟨max s.nextStartTime now, b⟩] } := by
  obtain ⟨x, xs, rfl⟩ : ∃ x xs, d = x :: xs := by
    cases d with
    | nil => rw [chunkBuffer_nil] at hb; cases hb
    | cons x xs => exact ⟨x, xs, rfl⟩
  unfold chunkBuffer at hb
  simp only [onmessage, audioMsg, applyTranscription]
  rw [hc]
  simp only [List.isEmpty_cons, Bool.false_eq_true, if_false]
  simp only [playAudioChunk, hb]
  rw [hc]

theorem schedList_length (c : ℚ) (evs : List (ℚ × List Char)) :
    (schedList c evs).length = evs.length := by
  induction evs generalizing c with
  | nil => rfl
  | cons e rest ih =>
      obtain ⟨now, d⟩ := e
      simp [schedList, ih]

theorem schedList_getD (evs : List (ℚ × List Char)) :
    ∀ (c : ℚ) (n : Nat), n < evs.length →
      ((schedList c evs).getD n default).startTime = c + durSum (evs.take n) := by
  induction evs with
  | nil => intro c n hn; simp at hn
  | cons e rest ih =>
      obtain ⟨now, d⟩ := e
      intro c n hn
      match n with
      | 0 => simp [schedList, durSum]
      | n + 1 =>
          have hn' : n < rest.length := by simp at hn; omega
          simp only [schedList, List.getD_cons_succ, ih (c + chunkDur d) n hn',
            List.take_succ_cons, durSum, List.map_cons, List.sum_cons]
          ring

theorem update_cursor_sources_congr (s : SysState) {x1 x2 : ℚ}
    {y1 y2 : List ScheduledSource} (hx : x1 = x2) (hy : y1 = y2) :
    ({ s with nextStartTime := x1, sources := y1 } : SysState) =
      { s with nextStartTime := x2, sources := y2 } := by
  rw [hx, hy]

theorem runMessages_audio (evs : List (ℚ × List Char)) :
    ∀ s : SysState, s.ctxOutput.isSome = true →
      (∀ e ∈ evs, (chunkBuffer e.2).isSome = true) →
      noStallB s.nextStartTime evs = true →
      runMessages s (evs.map fun e => (e.1, audioMsg e.2)) =
        { s with nextStartTime := s.nextStartTime + durSum evs,
                 sources := s.sources ++ schedList s.nextStartTime evs } := by
  induction evs with
  | nil =>
      intro s _ _ _
      simp [runMessages, durSum, schedList]
  | cons e rest ih =>
      obtain ⟨now, d⟩ := e
      intro s hctx hdec hstall
      obtain ⟨c0, hc0⟩ : ∃ c0, s.ctxOutput = some c0 :=
        Option.isSome_iff_exists.mp hctx
      obtain ⟨b, hb⟩ : ∃ b, chunkBuffer d = some b :=
        Option.isSome_iff_exists.mp (hdec (now, d) (List.mem_cons_self _ _))
      simp only [noStallB, Bool.and_eq_true, decide_eq_true_eq] at hstall
      have hnow : max s.nextStartTime now = s.nextStartTime :=
        max_eq_left hstall.1
      simp only [List.map_cons, runMessages,
        onmessage_audio_step now d s c0 hc0 b hb, hnow]
      have hd : chunkDur d = b.duration := by simp [chunkDur, hb]
      have hih := ih
        { s with nextStartTime := s.nextStartTime + b.duration,
                 sources := s.sources ++ [⟨s.nextStartTime, b⟩] }
        (by show s.ctxOutput.isSome = true; rw [hc0]; rfl)
        (fun e he => hdec e (by simp [he]))
        (by show noStallB (s.nextStartTime + b.duration) rest = true
            rw [← hd]; exact hstall.2)
      rw [hih]
      refine update_cursor_sources_congr _ ?_ ?_
      · show (s.nextStartTime + b.duration) + durSum rest =
          s.nextStartTime + durSum ((now, d) :: rest)
        simp only [durSum, List.map_cons, List.sum_cons, hd]
        ring
      · show (s.sources ++ [⟨s.nextStartTime, b⟩]) ++
            schedList (s.nextStartTime + b.duration) rest =
          s.sources ++ schedList s.nextStartTime ((now, d) :: rest)
        simp only [schedList, hb, Option.getD_some, hd, List.append_assoc,
          List.singleton_append]

/-- C1: for every stall-free sequence of decodable audio-chunk events,
the chunk scheduled at position `n` (among the sources the run appends)
starts exactly the sum of the previous chunks' decoded durations after
the first chunk's start: playback is scheduled gaplessly in arrival
order. -/
theorem playback_gapless (s : SysState) (cid : Nat)
    (hctx : s.ctxOutput = some cid) (evs : List (ℚ × List Char))
    (hdec : ∀ e ∈ evs, (chunkBuffer e.2).isSome = true)
    (hstall : noStallB s.nextStartTime evs = true)
    (n : Nat) (hn : n < evs.length) :
    ((runMessages s (evs.map fun e => (e.1, audioMsg e.2))).sources.getD
        (s.sources.length + n) default).startTime =
      ((runMessages s (evs.map fun e => (e.1, audioMsg e.2))).sources.getD
        s.sources.length default).startTime + durSum (evs.take n) := by
  rw [runMessages_audio evs s (by rw [hctx]; rfl) hdec hstall]
  show ((s.sources ++ schedList s.nextStartTime evs).getD
      (s.sources.length + n) default).startTime =
    ((s.sources ++ schedList s.nextStartTime evs).getD
      s.sources.length default).startTime + durSum (evs.take n)
  rw [List.getD_append_right _ _ _ _ (Nat.le_add_right _ _),
    List.getD_append_right _ _ _ _ (Nat.le_refl _),
    Nat.add_sub_cancel_left, Nat.sub_self]
  rw [schedList_getD evs s.nextStartTime n hn,
    schedList_getD evs s.nextStartTime 0 (by omega)]
  simp [durSum]

/-- The base64 text "AAAA", decoding to three zero bytes, hence to one
zero 16-bit frame (the trailing odd byte dropped). -/
def dAAAA : List Char := ['A', 'A', 'A', 'A']

def gaplessDemoState : SysState := { initState with ctxOutput := some 0 }

def gaplessDemoEvents : List (ℚ × List Char) := [(0, dAAAA), (0, dAAAA)]

theorem decode_dAAAA : decode dAAAA = [0, 0, 0] := by decide

theorem chunkBuffer_dAAAA :
    chunkBuffer dAAAA = some ⟨1, 1, 24000, [[0]]⟩ := by
  unfold chunkBuffer
  rw [decode_dAAAA]
  unfold decodeAudioData
  rw [if_pos (by decide : createBufferOk 1
    ((dataInt16 [0, 0, 0]).length / 1) 24000 = true)]
  norm_num [dataInt16, toInt16, List.range_succ, List.range_zero]

theorem chunkDur_dAAAA : chunkDur dAAAA = 1 / 24000 := by
  simp [chunkDur, chunkBuffer_dAAAA, AudioBuffer.duration]

theorem applyTranscription_fields (msg : LiveMsg) (s : SysState) :
    ∃ lm, applyTranscription msg s = { s with lastMessage := lm } := by
  unfold applyTranscription
  cases msg.outputTranscription with
  | none => exact ⟨s.lastMessage, rfl⟩
  | some t => exact ⟨t, rfl⟩

/-- Case analysis of one `onmessage` step: it only replaces the
transcript; or it additionally clamps the cursor (audio chunk whose
decode fails); or it clamps, schedules one source at the clamped cursor
and advances the cursor by the decoded duration. -/
theorem onmessage_char (now : ℚ) (msg : LiveMsg) (s : SysState) :
    ∃ lm, onmessage now msg s = { s with lastMessage := lm } ∨
      onmessage now msg s =
        { s with lastMessage := lm,
                 nextStartTime := max s.nextStartTime now } ∨
      ∃ b, onmessage now msg s =
        { s with lastMessage := lm,
                 nextStartTime := max s.nextStartTime now + b.duration,
                 sources := s.sources ++ [⟨max s.nextStartTime now, b⟩] } := by
  obtain ⟨lm, hlm⟩ := applyTranscription_fields msg s
  refine ⟨lm, ?_⟩
  unfold onmessage
  rw [hlm]
  cases had : msg.audioData with
  | none => left; rfl
  | some d =>
      cases hco : s.ctxOutput with
      | none => left; rfl
      | some c =>
          cases d with
          | nil => left; rfl
          | cons x xs =>
              dsimp only [List.isEmpty_cons]
              unfold playAudioChunk
              cases hdc : decodeAudioData (decode (x :: xs)) 24000 1 with
              | none => right; left; rfl
              | some b => right; right; exact ⟨b, rfl⟩

/-- C2: the playback cursor never decreases across any inbound event
(single step and whole runs), and any newly scheduled source starts no
earlier than the graph time `now` at scheduling; when the chunk arrives
after the cursor has passed (stall), the new source starts exactly at
`now`, never at the stale cursor. -/
theorem cursor_monotone_never_past :
    (∀ (s : SysState) (now : ℚ) (msg : LiveMsg),
        s.nextStartTime ≤ (onmessage now msg s).nextStartTime) ∧
    (∀ (s : SysState) (msgs : List (ℚ × LiveMsg)),
        s.nextStartTime ≤ (runMessages s msgs).nextStartTime) ∧
    (∀ (s : SysState) (now : ℚ) (msg : LiveMsg) (k : Nat),
        s.sources.length ≤ k → k < (onmessage now msg s).sources.length →
        now ≤ ((onmessage now msg s).sources.getD k default).startTime ∧
        (s.nextStartTime ≤ now →
          ((onmessage now msg s).sources.getD k default).startTime = now)) := by
  have step : ∀ (s : SysState) (now : ℚ) (msg : LiveMsg),
      s.nextStartTime ≤ (onmessage now msg s).nextStartTime := by
    intro s now msg
    rcases onmessage_char now msg s with ⟨lm, h | h | ⟨b, h⟩⟩
    · rw [h]
    · rw [h]
      exact le_max_left s.nextStartTime now
    · rw [h]
      show s.nextStartTime ≤ max s.nextStartTime now + b.duration
      calc s.nextStartTime ≤ max s.nextStartTime now := le_max_left _ _
        _ ≤ max s.nextStartTime now + b.duration :=
            le_add_of_nonneg_right (duration_nonneg b)
  refine ⟨step, ?_, ?_⟩
  · intro s msgs
    induction msgs generalizing s with
    | nil => exact le_refl _
    | cons e rest ih =>
        obtain ⟨now, m⟩ := e
        exact le_trans (step s now m) (ih (onmessage now m s))
  · intro s now msg k hk1 hk2
    rcases onmessage_char now msg s with ⟨lm, h | h | ⟨b, h⟩⟩
    · rw [h] at hk2
      exact absurd hk2 (by show ¬ k < s.sources.length; omega)
    · rw [h] at hk2
      exact absurd hk2 (by show ¬ k < s.sources.length; omega)
    · rw [h] at hk2 ⊢
      dsimp only at hk2 ⊢
      have hlen : k < s.sources.length + 1 := by
        simpa using hk2
      have hkl : k = s.sources.length := by omega
      subst hkl
      rw [List.getD_append_right _ _ _ _ (Nat.le_refl _), Nat.sub_self,
        List.getD_cons_zero]
      exact ⟨le_max_right _ _, fun hle => max_eq_right hle⟩

/-- Witness for C2 at a stalled chunk: the cursor stands at 0 but the
chunk arrives at graph time 1, so it is scheduled at 1 (now). -/
theorem cursor_monotone_never_past_witness :
    ((onmessage 1 (audioMsg dAAAA) gaplessDemoState).sources.getD 0
        default).startTime = 1 :=
  (cursor_monotone_never_past.2.2 gaplessDemoState 1 (audioMsg dAAAA) 0
      (by decide) (by decide)).2
    (by show (0 : ℚ) ≤ (1 : ℚ); norm_num)

/-- Lines 215-218: a message that carries only a transcript replaces
`lastMessage` and changes nothing else. -/
theorem onmessage_transcript (now : ℚ) (t : String) (s : SysState) :
    onmessage now (transcriptMsg t) s = { s with lastMessage := t } := rfl

/-- C10: the displayed transcript after any sequence of
output-transcription events is the text of the most recent event (the
initial text when there is none) — replacement, not concatenation. -/
theorem transcript_replaces (s : SysState) (now : ℚ) (ts : List String) :
    (runMessages s (ts.map fun t => (now, transcriptMsg t))).lastMessage =
      ts.getLastD s.lastMessage := by
  induction ts generalizing s with
  | nil => rfl
  | cons t rest ih =>
      simp only [List.map_cons, runMessages, onmessage_transcript,
        ih { s with lastMessage := t }, List.getLastD_cons]

/-- Witness for C1: two back-to-back chunks from the initial cursor. -/
theorem playback_gapless_witness :
    ((runMessages gaplessDemoState
        (gaplessDemoEvents.map fun e => (e.1, audioMsg e.2))).sources.getD
      (gaplessDemoState.sources.length + 1) default).startTime =
      ((runMessages gaplessDemoState
          (gaplessDemoEvents.map fun e => (e.1, audioMsg e.2))).sources.getD
        gaplessDemoState.sources.length default).startTime +
        durSum (gaplessDemoEvents.take 1) :=
  playback_gapless gaplessDemoState 0 rfl gaplessDemoEvents
    (by simp [gaplessDemoEvents, chunkBuffer_dAAAA])
    (by simp [gaplessDemoEvents, gaplessDemoState, initState, noStallB,
          chunkDur_dAAAA])
    1 (by simp [gaplessDemoEvents])

/-! ## Teardown and lifecycle claims -/

theorem mem_closeId (o : Option Nat) (l : List Nat) (x : Nat) :
    x ∈ closeId o l ↔ x ∈ l ∧ o ≠ some x := by
  cases o with
  | none => simp [closeId]
  | some i =>
      simp only [closeId, List.mem_filter, decide_eq_true_eq, ne_eq,
        Option.some.injEq]
      constructor
      · rintro ⟨hx, hne⟩
        exact ⟨hx, fun h => hne h.symm⟩
      · rintro ⟨hx, hne⟩
        exact ⟨hx, fun h => hne h.symm⟩

theorem closeId_eq_nil (o : Option Nat) (l : List Nat)
    (h : ∀ x ∈ l, o = some x) : closeId o l = [] := by
  rw [List.eq_nil_iff_forall_not_mem]
  intro x hx
  rw [mem_closeId] at hx
  exact hx.2 (h x hx.1)

theorem closeId2_eq_nil (o1 o2 : Option Nat) (l : List Nat)
    (h : ∀ x ∈ l, o1 = some x ∨ o2 = some x) :
    closeId o2 (closeId o1 l) = [] := by
  rw [List.eq_nil_iff_forall_not_mem]
  intro x hx
  rw [mem_closeId] at hx
  obtain ⟨hx1, hne2⟩ := hx
  rw [mem_closeId] at hx1
  obtain ⟨hxl, hne1⟩ := hx1
  rcases h x hxl with h1 | h2
  · exact hne1 h1
  · exact hne2 h2

/-- Teardown from a state whose only open resources are the ones held
by the refs leaves no open stream, context or connection. -/
theorem stopSession_opens (b : Bool) (s : SysState) (h : Owned s) :
    (stopSession b s).openStreams = [] ∧
    (stopSession b s).openCtxs = [] ∧
    (stopSession b s).openSessions = [] := by
  obtain ⟨h1, h2, h3⟩ := h
  refine ⟨?_, ?_, ?_⟩
  · exact closeId_eq_nil _ _ h1
  · show closeId s.ctxOutput (closeId s.ctxInput s.openCtxs) = []
    exact closeId2_eq_nil _ _ _ h3
  · exact closeId_eq_nil _ _ h2

/-- A second teardown does not change the state. -/
theorem stopSession_stop (b1 b2 : Bool) (s : SysState) :
    stopSession b2 (stopSession b1 s) = stopSession b1 s := rfl

/-- C6: `stopSession` from any state clears every owned resource
reference (no scheduled sources, no frame timer, no session handle, no
audio contexts, no capture stream), reports IDLE; from a state whose
open resources are those the refs hold, no stream/context/connection
remains open; and a second call (with either cue flag) produces no
change, hence no error: `stopSession` is idempotent. -/
theorem stopSession_idempotent_teardown (b1 b2 : Bool) (s : SysState) :
    ((stopSession b1 s).sources = [] ∧
     (stopSession b1 s).frameInterval = none ∧
     (stopSession b1 s).sessionRef = none ∧
     (stopSession b1 s).ctxInput = none ∧
     (stopSession b1 s).ctxOutput = none ∧
     (stopSession b1 s).videoStream = none ∧
     (stopSession b1 s).isActive = false ∧
     (stopSession b1 s).status = SessionStatus.IDLE) ∧
    (Owned s → (stopSession b1 s).openStreams = [] ∧
      (stopSession b1 s).openCtxs = [] ∧
      (stopSession b1 s).openSessions = []) ∧
    stopSession b2 (stopSession b1 s) = stopSession b1 s :=
  ⟨⟨rfl, rfl, rfl, rfl, rfl, rfl, rfl, rfl⟩,
   stopSession_opens b1 s, stopSession_stop b1 b2 s⟩

/-- Witness for C6 at the concrete active state. -/
theorem stopSession_idempotent_teardown_witness :
    (stopSession false activeDemo).openStreams = [] ∧
    (stopSession false activeDemo).openCtxs = [] ∧
    (stopSession false activeDemo).openSessions = [] :=
  (stopSession_idempotent_teardown false false activeDemo).2.1
    ⟨by decide, by decide, by decide⟩

/-- C7 counterexample: when the connection fails to open after the
capture stream and both audio contexts were acquired, the catch block
does report ERROR and surface the error pair, but it releases nothing —
the contexts and the stream tracks stay open, contradicting the claim
that every resource acquired so far is released. -/
theorem startSession_connect_failure_leaks :
    (startSession (.connectFailed "boom") initState).status =
      SessionStatus.ERROR ∧
    (startSession (.connectFailed "boom") initState).error =
      some ("Access Denied", "boom") ∧
    ¬ ((startSession (.connectFailed "boom") initState).openCtxs = [] ∧
       (startSession (.connectFailed "boom") initState).openStreams = []) :=
  ⟨rfl, by decide, fun h => absurd h.1 (by decide)⟩

/-- C7 amended: a `startSession` failure always reports ERROR and
surfaces a title/detail error.  When device acquisition itself is
denied nothing had been acquired, so (from a clean state) nothing
dangles; but when the connection fails to open, the freshly acquired
capture stream and both audio contexts remain open — they are not
released. -/
theorem startSession_failure_behavior (s : SysState) (m : String)
    (hclean : Clean s) :
    ((startSession (.mediaDenied m) s).status = SessionStatus.ERROR ∧
     (startSession (.mediaDenied m) s).error.isSome = true ∧
     (startSession (.mediaDenied m) s).openStreams = [] ∧
     (startSession (.mediaDenied m) s).openCtxs = [] ∧
     (startSession (.mediaDenied m) s).openSessions = []) ∧
    ((startSession (.connectFailed m) s).status = SessionStatus.ERROR ∧
     (startSession (.connectFailed m) s).error.isSome = true ∧
     (startSession (.connectFailed m) s).openStreams = [s.nextId] ∧
     (startSession (.connectFailed m) s).openCtxs =
       [s.nextId + 1, s.nextId + 2] ∧
     (startSession (.connectFailed m) s).ctxInput = some (s.nextId + 1) ∧
     (startSession (.connectFailed m) s).ctxOutput = some (s.nextId + 2) ∧
     (startSession (.connectFailed m) s).openSessions = []) := by
  obtain ⟨h1, h2, h3⟩ := hclean
  refine ⟨⟨rfl, rfl, h1, h2, h3⟩, ⟨rfl, rfl, ?_, ?_, rfl, rfl, h3⟩⟩
  · show s.openStreams ++ [s.nextId] = [s.nextId]
    rw [h1]; rfl
  · show s.openCtxs ++ [s.nextId + 1, s.nextId + 2] =
      [s.nextId + 1, s.nextId + 2]
    rw [h2]; rfl

/-- Witness for C7 (amended) from the clean initial state. -/
theorem startSession_failure_behavior_witness :
    (startSession (.mediaDenied "boom") initState).status =
      SessionStatus.ERROR ∧
    (startSession (.mediaDenied "boom") initState).openCtxs = [] :=
  ⟨(startSession_failure_behavior initState "boom" ⟨rfl, rfl, rfl⟩).1.1,
   (startSession_failure_behavior initState "boom"
     ⟨rfl, rfl, rfl⟩).1.2.2.2.1⟩

/-- C8 counterexample: after a remote error mid-session, the `onerror`
callback runs `stopSession`, which reports IDLE — the controller does
not end in the ERROR state the claim requires. -/
theorem onerror_ends_idle_not_error :
    (onerror activeDemo).status = SessionStatus.IDLE ∧
    (onerror activeDemo).status ≠ SessionStatus.ERROR :=
  ⟨rfl, by decide⟩

/-- C8 amended: `onerror` and `onclose` both route into the same
`stopSession` teardown (the cue flag has no state effect), the
teardown is idempotent so a repeated callback is harmless, and the
controller ends in IDLE (not ERROR) with no scheduled sources, no
session handle and no capture stream; from a state whose open
resources are the ones the refs hold, nothing remains open. -/
theorem onerror_teardown (s : SysState) :
    onerror s = stopSession true s ∧
    onclose s = stopSession false s ∧
    stopSession true s = stopSession false s ∧
    onerror (onerror s) = onerror s ∧
    (onerror s).status = SessionStatus.IDLE ∧
    (onerror s).sources = [] ∧
    (onerror s).sessionRef = none ∧
    (onerror s).videoStream = none ∧
    (Owned s → (onerror s).openStreams = [] ∧
      (onerror s).openCtxs = [] ∧ (onerror s).openSessions = []) :=
  ⟨rfl, rfl, rfl, stopSession_stop true true s, rfl, rfl, rfl, rfl,
   fun h => stopSession_opens true s h⟩

/-- Witness for C8 (amended) at the concrete active state. -/
theorem onerror_teardown_witness :
    (onerror activeDemo).openStreams = [] ∧
    (onerror activeDemo).openCtxs = [] ∧
    (onerror activeDemo).openSessions = [] :=
  (onerror_teardown activeDemo).2.2.2.2.2.2.2.2
    ⟨by decide, by decide, by decide⟩

/-- C9 counterexample: calling `startSession` again while a session is
ACTIVE is neither a no-op nor a stop-then-start: it opens a second
connection while the first one is still open — two connections (ids 3
and 8) are open concurrently. -/
theorem startSession_double_open :
    (startSession .connected initState).status = SessionStatus.ACTIVE ∧
    (startSession .connected
      (startSession .connected initState)).openSessions = [3, 8] ∧
    (startSession .connected
      (startSession .connected initState)).openSessions.length = 2 :=
  ⟨rfl, rfl, rfl⟩

/-- C9 amended: `startSession` has no concurrency guard.  Invoked while
a session is open (CONNECTING or ACTIVE, live handle `sid`), it opens a
fresh connection and overwrites every ref without closing anything: the
old connection stays open next to the new one (two concurrently open
connections) and the old contexts and stream stay open (leaked). -/
theorem startSession_no_guard (s : SysState) (sid : Nat)
    (_hact : s.status = SessionStatus.ACTIVE ∨
      s.status = SessionStatus.CONNECTING)
    (_href : s.sessionRef = some sid) (hmem : sid ∈ s.openSessions)
    (hfresh : ∀ x ∈ s.openSessions, x < s.nextId) :
    sid ∈ (startSession .connected s).openSessions ∧
    (s.nextId + 3) ∈ (startSession .connected s).openSessions ∧
    sid ≠ s.nextId + 3 ∧
    2 ≤ (startSession .connected s).openSessions.length ∧
    (startSession .connected s).sessionRef = some (s.nextId + 3) ∧
    (∀ x ∈ s.openCtxs, x ∈ (startSession .connected s).openCtxs) ∧
    (∀ x ∈ s.openStreams, x ∈ (startSession .connected s).openStreams) := by
  have hlt : sid < s.nextId := hfresh sid hmem
  refine ⟨?_, ?_, by omega, ?_, rfl, ?_, ?_⟩
  · show sid ∈ s.openSessions ++ [s.nextId + 3]
    exact List.mem_append_left _ hmem
  · show s.nextId + 3 ∈ s.openSessions ++ [s.nextId + 3]
    exact List.mem_append_right _ (by simp)
  · show 2 ≤ (s.openSessions ++ [s.nextId + 3]).length
    have hpos : 0 < s.openSessions.length := List.length_pos_of_mem hmem
    simp only [List.length_append, List.length_singleton]
    omega
  · intro x hx
    show x ∈ s.openCtxs ++ [s.nextId + 1, s.nextId + 2]
    exact List.mem_append_left _ hx
  · intro x hx
    show x ∈ s.openStreams ++ [s.nextId]
    exact List.mem_append_left _ hx

/-- Witness for C9 (amended): a second start from the demo active state
leaves both session ids 3 and 8 open. -/
theorem startSession_no_guard_witness :
    3 ∈ (startSession .connected activeDemo).openSessions ∧
    8 ∈ (startSession .connected activeDemo).openSessions :=
  ⟨(startSession_no_guard activeDemo 3 (Or.inl rfl) rfl (by decide)
      (by decide)).1,
   (startSession_no_guard activeDemo 3 (Or.inl rfl) rfl (by decide)
      (by decide)).2.1⟩

/-! ## PCM decoding claims -/

theorem getD_lt_of_mem_bound (data : List Nat) (idx : Nat)
    (hidx : idx < data.length) (hb : ∀ x ∈ data, x < 256) :
    data.getD idx 0 < 256 := by
  rw [List.getD_eq_getElem?_getD, List.getElem?_eq_getElem hidx,
    Option.getD_some]
  exact hb _ (List.getElem_mem hidx)

/-- C3 counterexample: the empty byte sequence has length divisible by
`2 * 1`, yet `decodeAudioData` does not produce a zero-frame buffer —
`createBuffer` rejects a frame count of 0 (`NotSupportedError`), so the
call fails. -/
theorem decodeAudioData_empty_fails :
    (2 * 1 ∣ ([] : List Nat).length) ∧
    decodeAudioData [] 24000 1 = none :=
  ⟨⟨0, rfl⟩, rfl⟩

/-- C3 amended: for every nonempty byte sequence whose length is a
multiple of `2 * channelCount` (with a channel count and sample rate in
`createBuffer`'s supported ranges), `decodeAudioData` succeeds and its
buffer deinterleaves the signed 16-bit little-endian samples into
`channelCount` channels of `length / (2 * channelCount)` frames, each
sample divided by 32768 and hence in [-1, 1).  (For the empty sequence
the call instead fails, per the counterexample.) -/
theorem decodeAudioData_aligned (data : List Nat) (sr nCh : Nat)
    (hch1 : 1 ≤ nCh) (hch2 : nCh ≤ 32) (hsr1 : 8000 ≤ sr)
    (hsr2 : sr ≤ 96000) (hlen : 0 < data.length)
    (hdvd : 2 * nCh ∣ data.length) (hb : ∀ x ∈ data, x < 256) :
    ∃ B : AudioBuffer, decodeAudioData data sr nCh = some B ∧
      B.numberOfChannels = nCh ∧ B.sampleRate = sr ∧
      B.length = data.length / (2 * nCh) ∧
      B.channels.length = nCh ∧
      ∀ ch, ch < nCh →
        (B.channels.getD ch []).length = data.length / (2 * nCh) ∧
        ∀ i, i < data.length / (2 * nCh) →
          (B.channels.getD ch []).getD i 0 =
            ((toInt16 (data.getD (2 * (i * nCh + ch)) 0)
              (data.getD (2 * (i * nCh + ch) + 1) 0) : ℤ) : ℚ) / 32768 ∧
          -1 ≤ (B.channels.getD ch []).getD i 0 ∧
          (B.channels.getD ch []).getD i 0 < 1 := by
  obtain ⟨m, hm⟩ := hdvd
  have hm1 : 1 ≤ m := by
    rcases Nat.eq_zero_or_pos m with h0 | h1
    · exfalso; rw [h0, Nat.mul_zero] at hm; omega
    · exact h1
  have hhalf : data.length / 2 = nCh * m := by
    rw [hm, show 2 * nCh * m = 2 * (nCh * m) by ring]
    exact Nat.mul_div_cancel_left _ (by omega)
  have hsl : (dataInt16 data).length = nCh * m := by
    rw [dataInt16_length, hhalf]
  have hfc : (dataInt16 data).length / nCh = m := by
    rw [hsl, Nat.mul_div_cancel_left _ (by omega : 0 < nCh)]
  have hmv : data.length / (2 * nCh) = m := by
    rw [hm, Nat.mul_div_cancel_left _ (by omega : 0 < 2 * nCh)]
  have hok : createBufferOk nCh ((dataInt16 data).length / nCh) sr = true := by
    rw [hfc]
    simp only [createBufferOk, Bool.and_eq_true, decide_eq_true_eq]
    omega
  unfold decodeAudioData
  dsimp only []
  rw [if_pos hok, hfc]
  refine ⟨_, rfl, rfl, rfl, ?_, by simp, ?_⟩
  · rw [hmv]
  · intro ch hch
    rw [getD_range_map _ _ _ _ hch]
    constructor
    · simp [hmv]
    · intro i hi
      rw [hmv] at hi
      rw [getD_range_map _ _ _ _ hi]
      have hkb : i * nCh + ch < nCh * m := by
        calc i * nCh + ch < i * nCh + nCh := by omega
          _ = (i + 1) * nCh := by ring
          _ ≤ m * nCh := Nat.mul_le_mul_right _ (by omega)
          _ = nCh * m := Nat.mul_comm _ _
      have hk2 : i * nCh + ch < data.length / 2 := by
        rw [hhalf]; exact hkb
      have hidx : 2 * (i * nCh + ch) + 1 < data.length := by
        rw [hm, show 2 * nCh * m = 2 * (nCh * m) by ring]
        omega
      have hlo := getD_lt_of_mem_bound data (2 * (i * nCh + ch))
        (by omega) hb
      have hhi := getD_lt_of_mem_bound data (2 * (i * nCh + ch) + 1)
        hidx hb
      have hval := dataInt16_getD data (i * nCh + ch) hk2
      obtain ⟨hl, hr⟩ := toInt16_bounds _ _ hlo hhi
      refine ⟨by rw [hval], ?_, ?_⟩
      · rw [hval]
        exact (ratDiv_bounds _ hl hr).1
      · rw [hval]
        exact (ratDiv_bounds _ hl hr).2

/-- Witness for C3 (amended) at the two bytes 0x00 0x80, the most
negative 16-bit sample: the single mono frame decodes to -32768/32768 =
-1. -/
theorem decodeAudioData_aligned_witness :
    ∃ B : AudioBuffer, decodeAudioData [0, 128] 24000 1 = some B ∧
      (B.channels.getD 0 []).getD 0 0 =
        ((toInt16 (([0, 128] : List Nat).getD (2 * (0 * 1 + 0)) 0)
          (([0, 128] : List Nat).getD (2 * (0 * 1 + 0) + 1) 0) : ℤ) : ℚ) /
          32768 ∧
      -1 ≤ (B.channels.getD 0 []).getD 0 0 ∧
      (B.channels.getD 0 []).getD 0 0 < 1 := by
  obtain ⟨B, hsome, _, _, _, _, hch⟩ := decodeAudioData_aligned [0, 128]
    24000 1 (by decide) (by decide) (by decide) (by decide) (by decide)
    (by decide) (by decide)
  obtain ⟨_, hv⟩ := hch 0 (by decide)
  obtain ⟨v1, v2, v3⟩ := hv 0 (by decide)
  exact ⟨B, hsome, v1, v2, v3⟩

/-- C4 counterexample: a 3-byte chunk is not sample-aligned for mono
16-bit audio, yet `decodeAudioData` raises nothing — it silently drops
the trailing byte and produces a buffer; conversely the aligned empty
chunk does fail.  Failure is therefore not equivalent to
misalignment. -/
theorem decodeAudioData_misaligned_no_error :
    ¬ (2 * 1 ∣ ([1, 2, 3] : List Nat).length) ∧
    (decodeAudioData [1, 2, 3] 24000 1).isSome = true ∧
    (2 * 1 ∣ ([] : List Nat).length) ∧
    decodeAudioData [] 24000 1 = none :=
  ⟨by decide, rfl, ⟨0, rfl⟩, rfl⟩

/-- C4 amended: `decodeAudioData` never raises a format error for
misaligned bytes — trailing bytes that do not fill a whole frame are
silently dropped.  With a valid channel count and sample rate it fails
(`createBuffer`'s `NotSupportedError`) exactly when the input yields
zero whole frames; and no `onmessage` outcome (including a failing
decode) changes the session's status, activity, handles or streams —
the chunk is dropped and the session stays up. -/
theorem decodeAudioData_failure_iff :
    (∀ (data : List Nat) (sr nCh : Nat), 1 ≤ nCh → nCh ≤ 32 →
      8000 ≤ sr → sr ≤ 96000 →
      (decodeAudioData data sr nCh = none ↔ data.length / 2 / nCh = 0)) ∧
    (∀ (now : ℚ) (msg : LiveMsg) (s : SysState),
      (onmessage now msg s).status = s.status ∧
      (onmessage now msg s).isActive = s.isActive ∧
      (onmessage now msg s).sessionRef = s.sessionRef ∧
      (onmessage now msg s).videoStream = s.videoStream ∧
      (onmessage now msg s).openStreams = s.openStreams ∧
      (onmessage now msg s).openSessions = s.openSessions) := by
  constructor
  · intro data sr nCh h1 h2 h3 h4
    unfold decodeAudioData
    dsimp only []
    rw [dataInt16_length]
    constructor
    · intro h
      by_contra hne
      have hcb : createBufferOk nCh (data.length / 2 / nCh) sr = true := by
        simp only [createBufferOk, Bool.and_eq_true, decide_eq_true_eq]
        exact ⟨⟨⟨⟨h1, h2⟩, Nat.one_le_iff_ne_zero.mpr hne⟩, h3⟩, h4⟩
      rw [if_pos hcb] at h
      cases h
    · intro h
      have hcb : createBufferOk nCh (data.length / 2 / nCh) sr = false := by
        have hz : decide (1 ≤ data.length / 2 / nCh) = false := by
          rw [decide_eq_false_iff_not, h]
          decide
        simp only [createBufferOk, hz, Bool.and_false, Bool.false_and]
      rw [hcb]
      rfl
  · intro now msg s
    rcases onmessage_char now msg s with ⟨lm, h | h | ⟨b, h⟩⟩ <;> rw [h] <;>
      exact ⟨rfl, rfl, rfl, rfl, rfl, rfl⟩

/-- Witness for C4 (amended): a single stray byte yields zero frames,
so the decode fails. -/
theorem decodeAudioData_failure_iff_witness :
    decodeAudioData [1] 24000 1 = none ↔
      ([1] : List Nat).length / 2 / 1 = 0 :=
  decodeAudioData_failure_iff.1 [1] 24000 1 (by decide) (by decide)
    (by decide) (by decide)

end EchoVision
